import Mathlib

/-!
Shallow embedding of `webrtc/modules/bitrate_controller/send_side_bandwidth_estimation.cc`
(class `SendSideBandwidthEstimation`) and proofs about it.

Modelling conventions:
* C++ `uint32_t` fields are `Nat`; where an arithmetic result can exceed the
  32-bit range the write site reduces `% 4294967296`.  `int`/`int64_t` fields
  are `Int`; `int -> uint32_t` narrowing is `toU32` (reduction mod 2^32).
* `uint8_t` values (loss fractions in Q8) are `Nat`; the single store into the
  `uint8_t` field `last_fraction_loss_` reduces `% 256`, mirroring the C++
  narrowing.
* The floating-point expressions of the source evaluate exactly on the values
  that occur, so they are embedded as exact integer arithmetic:
  - `bitrate_ * 1.08 + 0.5` truncated to `uint32_t` is `(54 * b + 25) / 50`
    (the exact value is >= 1/50 away from any integer, far above the rounding
    error of the double computation for any `b < 2^32`);
  - `bitrate_ * 0.8` truncated is `4 * b / 5` (same argument, distance 1/5);
  - `bitrate_ * (512 - fl) / 512.0` is exact in double for `b < 2^32`, so the
    truncation is `b * (512 - fl) / 512`;
  - `1.2 * kFeedbackIntervalMs` rounds to exactly `1800.0` in double, so the
    comparison is `time_since_packet_report_ms < 1800`.
  - the float loss thresholds are exact rationals; they are carried as a
    numerator/denominator pair `LossFrac` compared by cross-multiplication.
    The defaults `0.02f` / `0.10f` are carried as `1/50` and `1/10`, which
    decide every comparison against a Q8 point `fl/256` identically.
* The external sinks (event log, histograms) receive data but hold no state
  the estimator reads back; only the estimator-side bookkeeping they cause
  (`last_rtc_event_log_ms_`, the UMA latches) is state here.  The arguments of
  the `UpdateUmaStats` call made by `UpdateReceiverBlock` are returned
  alongside the new state so that the call can be reasoned about.
-/

namespace SSBWE

/-- Exact rational value of a floating-point loss threshold, as
numerator/denominator.  Comparison is by cross-multiplication, which agrees
with the real-number comparison whenever both denominators are positive. -/
structure LossFrac where
  num : Int
  den : Int
deriving DecidableEq

/-- Exact order on `LossFrac` (valid for positive denominators). -/
def LossFrac.le (a b : LossFrac) : Prop := a.num * b.den ≤ b.num * a.den

instance (a b : LossFrac) : Decidable (LossFrac.le a b) := by
  unfold LossFrac.le; infer_instance

/-- Q8 loss fraction `fl/256` as a `LossFrac` (`loss = last_fraction_loss_ / 256.0f`). -/
def q8 (fl : Nat) : LossFrac := ⟨fl, 256⟩

/-- Reduction of a C++ `int` value to `uint32_t` (mod 2^32). -/
def toU32 (x : Int) : Nat := (x % 4294967296).toNat

/-- UMA one-shot state machine tag (`kNoUpdate`, `kFirstDone`, `kDone`). -/
inductive UmaState where
  | kNoUpdate : UmaState
  | kFirstDone : UmaState
  | kDone : UmaState
deriving DecidableEq

/-- The private state of `SendSideBandwidthEstimation` (field names follow the
C++ members, without the trailing underscore). -/
structure EstState where
  lost_packets_since_last_loss_update_Q8 : Int
  expected_packets_since_last_loss_update : Int
  bitrate : Nat
  min_bitrate_configured : Nat
  max_bitrate_configured : Nat
  last_low_bitrate_log_ms : Int
  has_decreased_since_last_fraction_loss : Bool
  last_feedback_ms : Int
  last_packet_report_ms : Int
  last_timeout_ms : Int
  last_fraction_loss : Nat
  last_logged_fraction_loss : Nat
  last_round_trip_time_ms : Int
  bwe_incoming : Nat
  delay_based_bitrate_bps : Nat
  time_last_decrease_ms : Int
  first_report_time_ms : Int
  initially_lost_packets : Int
  bitrate_at_2_seconds_kbps : Nat
  uma_update_state : UmaState
  rampup_uma_stats_updated : List Bool
  last_rtc_event_log_ms : Int
  in_timeout_experiment : Bool
  low_loss_threshold : LossFrac
  high_loss_threshold : LossFrac
  bitrate_threshold_bps : Nat
  min_bitrate_history : List (Int × Nat)
deriving DecidableEq

/-- Constructor.  `system_min` stands for
`congestion_controller::GetMinBitrateBps()`.  Modelled from the spec: that
function lives outside this repository; the spec calls it "a system-wide
minimum obtained from the congestion controller", so it is a parameter here.
Likewise the field-trial lookups are injected: `in_timeout` is the result of
`IsEnabled("WebRTC-FeedbackTimeout")` and `low`/`high`/`thresh_bps` are the
loss-experiment parameters (defaults `0.02f`, `0.10f`, `0` when the experiment
is absent). -/
def initState (system_min : Int) (in_timeout : Bool) (low high : LossFrac)
    (thresh_bps : Nat) : EstState :=
  { lost_packets_since_last_loss_update_Q8 := 0
    expected_packets_since_last_loss_update := 0
    bitrate := 0
    min_bitrate_configured := toU32 system_min
    max_bitrate_configured := 1000000000
    last_low_bitrate_log_ms := -1
    has_decreased_since_last_fraction_loss := false
    last_feedback_ms := -1
    last_packet_report_ms := -1
    last_timeout_ms := -1
    last_fraction_loss := 0
    last_logged_fraction_loss := 0
    last_round_trip_time_ms := 0
    bwe_incoming := 0
    delay_based_bitrate_bps := 0
    time_last_decrease_ms := 0
    first_report_time_ms := -1
    initially_lost_packets := 0
    bitrate_at_2_seconds_kbps := 0
    uma_update_state := UmaState.kNoUpdate
    rampup_uma_stats_updated := [false, false, false]
    last_rtc_event_log_ms := -1
    in_timeout_experiment := in_timeout
    low_loss_threshold := low
    high_loss_threshold := high
    bitrate_threshold_bps := thresh_bps
    min_bitrate_history := [] }

/-- Constructor with the default experiment configuration. -/
def defaultInit (system_min : Int) (in_timeout : Bool) : EstState :=
  initState system_min in_timeout ⟨1, 50⟩ ⟨1, 10⟩ 0

/-- First stage of `CapBitrateToThresholds`: the REMB ceiling. -/
def capRemb (s : EstState) (bitrate : Nat) : Nat :=
  if 0 < s.bwe_incoming ∧ s.bwe_incoming < bitrate then s.bwe_incoming else bitrate

/-- Second stage of `CapBitrateToThresholds`: the delay-based ceiling. -/
def capDelay (s : EstState) (bitrate : Nat) : Nat :=
  if 0 < s.delay_based_bitrate_bps ∧ s.delay_based_bitrate_bps < bitrate then
    s.delay_based_bitrate_bps
  else bitrate

/-- Third stage of `CapBitrateToThresholds`: the configured maximum. -/
def capMax (s : EstState) (bitrate : Nat) : Nat :=
  if s.max_bitrate_configured < bitrate then s.max_bitrate_configured else bitrate

/-- First three stages of `CapBitrateToThresholds`, in source order. -/
def capRaw (s : EstState) (bitrate : Nat) : Nat :=
  capMax s (capDelay s (capRemb s bitrate))

/-- Value returned by `CapBitrateToThresholds` (the four clamps). -/
def capValue (s : EstState) (bitrate : Nat) : Nat :=
  if capRaw s bitrate < s.min_bitrate_configured then s.min_bitrate_configured
  else capRaw s bitrate

/-- New `last_low_bitrate_log_ms_` after `CapBitrateToThresholds` (the
below-minimum warning is rate limited to once per `kLowBitrateLogPeriodMs`). -/
def capLogMs (s : EstState) (now_ms : Int) (bitrate : Nat) : Int :=
  if capRaw s bitrate < s.min_bitrate_configured ∧
     (s.last_low_bitrate_log_ms = -1 ∨ 10000 < now_ms - s.last_low_bitrate_log_ms) then
    now_ms
  else s.last_low_bitrate_log_ms

/-- State after `bitrate_ = CapBitrateToThresholds(now_ms, b)`. -/
def applyCap (s : EstState) (now_ms : Int) (b : Nat) : EstState :=
  { s with bitrate := capValue s b, last_low_bitrate_log_ms := capLogMs s now_ms b }

/-- `SetSendBitrate`: store the bitrate and clear the history so the new value
is used directly and not capped (precondition `bitrate > 0` is a DCHECK). -/
def SetSendBitrate (s : EstState) (bitrate : Int) : EstState :=
  { s with bitrate := toU32 bitrate, min_bitrate_history := [] }

/-- `SetMinMaxBitrate` (precondition `min_bitrate >= 0` is a DCHECK);
`system_min` is `congestion_controller::GetMinBitrateBps()`. -/
def SetMinMaxBitrate (system_min : Int) (s : EstState)
    (min_bitrate max_bitrate : Int) : EstState :=
  let minc := toU32 (max min_bitrate system_min)
  { s with
    min_bitrate_configured := minc
    max_bitrate_configured :=
      if 0 < max_bitrate then max minc (toU32 max_bitrate) else 1000000000 }

/-- `SetBitrates`. -/
def SetBitrates (system_min : Int) (s : EstState)
    (send_bitrate min_bitrate max_bitrate : Int) : EstState :=
  SetMinMaxBitrate system_min
    (if 0 < send_bitrate then SetSendBitrate s send_bitrate else s)
    min_bitrate max_bitrate

/-- `CurrentEstimate`: `(*bitrate, *loss, *rtt)`. -/
def CurrentEstimate (s : EstState) : Nat × Nat × Int :=
  (s.bitrate, s.last_fraction_loss, s.last_round_trip_time_ms)

/-- `GetMinBitrate`. -/
def GetMinBitrate (s : EstState) : Nat := s.min_bitrate_configured

/-- `UpdateReceiverEstimate`: record the REMB value, then recap. -/
def UpdateReceiverEstimate (s : EstState) (now_ms : Int) (bandwidth : Nat) : EstState :=
  let s1 := { s with bwe_incoming := bandwidth }
  applyCap s1 now_ms s1.bitrate

/-- `UpdateDelayBasedEstimate`: record the delay-based value, then recap. -/
def UpdateDelayBasedEstimate (s : EstState) (now_ms : Int) (bitrate_bps : Nat) : EstState :=
  let s1 := { s with delay_based_bitrate_bps := bitrate_bps }
  applyCap s1 now_ms s1.bitrate

/-- `IsInStartPhase`. -/
def IsInStartPhase (s : EstState) (now_ms : Int) : Prop :=
  s.first_report_time_ms = -1 ∨ now_ms - s.first_report_time_ms < 2000

instance (s : EstState) (now_ms : Int) : Decidable (IsInStartPhase s now_ms) := by
  unfold IsInStartPhase; infer_instance

/-- `UpdateMinHistory` on the deque alone: expire the front
(`now_ms - front.first + 1 > kBweIncreaseIntervalMs`), pop the back while the
current bitrate is `<=` it, then push `(now_ms, bitrate)`. -/
def updateMinHistoryList (now_ms : Int) (bitrate : Nat)
    (h : List (Int × Nat)) : List (Int × Nat) :=
  ((h.dropWhile (fun p => decide (1000 < now_ms - p.1 + 1))).reverse.dropWhile
      (fun p => decide (bitrate ≤ p.2))).reverse ++ [(now_ms, bitrate)]

/-- `UpdateMinHistory` on the full state. -/
def UpdateMinHistory (s : EstState) (now_ms : Int) : EstState :=
  { s with min_bitrate_history := updateMinHistoryList now_ms s.bitrate s.min_bitrate_history }

/-- `UpdateUmaStats`.  The histogram emissions go to an external sink; the
state effects are the ramp-up latches and the one-shot state machine.  Both
accumulator operands of the C++ are `int`s, hence `Int` here. -/
def UpdateUmaStats (s : EstState) (now_ms rtt : Int) (lost_packets : Int) : EstState :=
  let bitrate_kbps := (s.bitrate + 500) / 1000
  let s1 := { s with
    rampup_uma_stats_updated :=
      (s.rampup_uma_stats_updated.zip [500, 1000, 2000]).map
        (fun p => p.1 || decide (p.2 ≤ bitrate_kbps)) }
  if IsInStartPhase s1 now_ms then
    { s1 with initially_lost_packets := s1.initially_lost_packets + lost_packets }
  else if s1.uma_update_state = UmaState.kNoUpdate then
    { s1 with uma_update_state := UmaState.kFirstDone
              bitrate_at_2_seconds_kbps := bitrate_kbps }
  else if s1.uma_update_state = UmaState.kFirstDone ∧
          20000 ≤ now_ms - s1.first_report_time_ms then
    { s1 with uma_update_state := UmaState.kDone }
  else
    let _ := rtt
    s1

/-- Loss-based control: the body of the `time_since_packet_report_ms <
1.2 * kFeedbackIntervalMs` branch of `UpdateEstimate` (increase / hold /
gated decrease). -/
def lossControl (s : EstState) (now_ms : Int) : EstState :=
  if s.bitrate < s.bitrate_threshold_bps ∨
     LossFrac.le (q8 s.last_fraction_loss) s.low_loss_threshold then
    -- bitrate_ = uint32(min_bitrate_history_.front().second * 1.08 + 0.5); bitrate_ += 1000
    { s with bitrate :=
        ((54 * (s.min_bitrate_history.headD (0, 0)).2 + 25) / 50 + 1000) % 4294967296 }
  else if s.bitrate_threshold_bps < s.bitrate then
    if LossFrac.le (q8 s.last_fraction_loss) s.high_loss_threshold then
      s  -- loss between the thresholds: do nothing
    else
      if ¬ s.has_decreased_since_last_fraction_loss ∧
         300 + s.last_round_trip_time_ms ≤ now_ms - s.time_last_decrease_ms then
        { s with
          time_last_decrease_ms := now_ms
          bitrate := s.bitrate * (512 - s.last_fraction_loss) / 512
          has_decreased_since_last_fraction_loss := true }
      else s
  else s

/-- Feedback-timeout branch of `UpdateEstimate` (the `else if` after the
feedback-fresh test). -/
def timeoutBranch (s : EstState) (now_ms : Int) : EstState :=
  if 4500 < now_ms - s.last_feedback_ms ∧
     (s.last_timeout_ms = -1 ∨ 1000 < now_ms - s.last_timeout_ms) then
    if s.in_timeout_experiment then
      { s with
        bitrate := 4 * s.bitrate / 5
        lost_packets_since_last_loss_update_Q8 := 0
        expected_packets_since_last_loss_update := 0
        last_timeout_ms := now_ms }
    else s
  else s

/-- State before the final capping of `UpdateEstimate`: loss-based control when
the last packet report is fresh (`time_since_packet_report_ms <
1.2 * kFeedbackIntervalMs = 1800`), else the feedback-timeout branch. -/
def preCapState (s : EstState) (now_ms : Int) : EstState :=
  if now_ms - s.last_packet_report_ms < 1800 then lossControl s now_ms
  else timeoutBranch s now_ms

/-- Final part of `UpdateEstimate`: compute `capped_bitrate`, update the
event-log bookkeeping when one of the four emission conditions holds, and
assign `bitrate_ = capped_bitrate`. -/
def logAndCap (s : EstState) (now_ms : Int) : EstState :=
  if capValue s s.bitrate ≠ s.bitrate ∨
     s.last_fraction_loss ≠ s.last_logged_fraction_loss ∨
     s.last_rtc_event_log_ms = -1 ∨ 5000 < now_ms - s.last_rtc_event_log_ms then
    { s with
      bitrate := capValue s s.bitrate
      last_low_bitrate_log_ms := capLogMs s now_ms s.bitrate
      last_logged_fraction_loss := s.last_fraction_loss
      last_rtc_event_log_ms := now_ms }
  else
    { s with
      bitrate := capValue s s.bitrate
      last_low_bitrate_log_ms := capLogMs s now_ms s.bitrate }

/-- Everything in `UpdateEstimate` from the `UpdateMinHistory` call on
(the part after the startup-trust block). -/
def updateEstimateTail (s : EstState) (now_ms : Int) : EstState :=
  if s.last_packet_report_ms = -1 then
    applyCap (UpdateMinHistory s now_ms) now_ms (UpdateMinHistory s now_ms).bitrate
  else
    logAndCap (preCapState (UpdateMinHistory s now_ms) now_ms) now_ms

/-- Startup-trust adoption of the REMB hint
(`if (bwe_incoming_ > bitrate_) bitrate_ = CapBitrateToThresholds(...)`). -/
def adoptRemb (s : EstState) (now_ms : Int) : EstState :=
  if s.bitrate < s.bwe_incoming then applyCap s now_ms s.bwe_incoming else s

/-- Startup-trust adoption of the delay-based hint. -/
def adoptDelay (s : EstState) (now_ms : Int) : EstState :=
  if s.bitrate < s.delay_based_bitrate_bps then applyCap s now_ms s.delay_based_bitrate_bps
  else s

/-- `UpdateEstimate`. -/
def UpdateEstimate (s : EstState) (now_ms : Int) : EstState :=
  if s.last_fraction_loss = 0 ∧ IsInStartPhase s now_ms then
    if (adoptDelay (adoptRemb s now_ms) now_ms).bitrate ≠ s.bitrate then
      { adoptDelay (adoptRemb s now_ms) now_ms with
        min_bitrate_history := [(now_ms, (adoptDelay (adoptRemb s now_ms) now_ms).bitrate)] }
    else updateEstimateTail (adoptDelay (adoptRemb s now_ms) now_ms) now_ms
  else updateEstimateTail s now_ms

/-- `UpdateReceiverBlock`.  The second component records the arguments
`(now_ms, rtt, lost_packets)` of the `UpdateUmaStats` call, or `none` when the
function returns without making that call. -/
def UpdateReceiverBlock (s : EstState) (fraction_loss : Nat) (rtt : Int)
    (number_of_packets : Int) (now_ms : Int) : EstState × Option (Int × Int × Int) :=
  let sa := { s with last_feedback_ms := now_ms }
  let sb := if sa.first_report_time_ms = -1 then { sa with first_report_time_ms := now_ms }
            else sa
  let sc := { sb with last_round_trip_time_ms := rtt }
  -- lost_packets argument of UpdateUmaStats: (fraction_loss * number_of_packets) >> 8,
  -- an arithmetic shift on int, i.e. floor division by 256.
  let lost := Int.fdiv ((fraction_loss : Int) * number_of_packets) 256
  if 0 < number_of_packets then
    let sd := { sc with
      lost_packets_since_last_loss_update_Q8 :=
        sc.lost_packets_since_last_loss_update_Q8 + (fraction_loss : Int) * number_of_packets
      expected_packets_since_last_loss_update :=
        sc.expected_packets_since_last_loss_update + number_of_packets }
    if sd.expected_packets_since_last_loss_update < 20 then
      (sd, none)
    else
      -- both accumulators are nonnegative C++ ints here (the expected count is
      -- >= 20); the quotient is narrowed into the uint8_t field, hence % 256.
      let se := { sd with
        has_decreased_since_last_fraction_loss := false
        last_fraction_loss :=
          sd.lost_packets_since_last_loss_update_Q8.toNat /
            sd.expected_packets_since_last_loss_update.toNat % 256
        lost_packets_since_last_loss_update_Q8 := 0
        expected_packets_since_last_loss_update := 0
        last_packet_report_ms := now_ms }
      let sf := UpdateEstimate se now_ms
      (UpdateUmaStats sf now_ms rtt lost, some (now_ms, rtt, lost))
  else
    (UpdateUmaStats sc now_ms rtt lost, some (now_ms, rtt, lost))

/-- One operation of the estimator's public interface. -/
inductive Op where
  | setSendBitrate (bitrate : Int) : Op
  | setMinMaxBitrate (min_bitrate max_bitrate : Int) : Op
  | setBitrates (send_bitrate min_bitrate max_bitrate : Int) : Op
  | updateReceiverEstimate (now_ms : Int) (bandwidth : Nat) : Op
  | updateDelayBasedEstimate (now_ms : Int) (bitrate_bps : Nat) : Op
  | updateReceiverBlock (fraction_loss : Nat) (rtt number_of_packets now_ms : Int) : Op
  | updateEstimate (now_ms : Int) : Op
deriving DecidableEq

/-- Interpretation of one operation. -/
def step (system_min : Int) (s : EstState) : Op → EstState
  | Op.setSendBitrate b => SetSendBitrate s b
  | Op.setMinMaxBitrate mn mx => SetMinMaxBitrate system_min s mn mx
  | Op.setBitrates sb mn mx => SetBitrates system_min s sb mn mx
  | Op.updateReceiverEstimate now bw => UpdateReceiverEstimate s now bw
  | Op.updateDelayBasedEstimate now b => UpdateDelayBasedEstimate s now b
  | Op.updateReceiverBlock fl rtt n now => (UpdateReceiverBlock s fl rtt n now).1
  | Op.updateEstimate now => UpdateEstimate s now

/-- Interpretation of a sequence of operations. -/
def run (system_min : Int) (s : EstState) : List Op → EstState
  | [] => s
  | op :: ops => run system_min (step system_min s op) ops

/-- Timestamp an operation carries, if any. -/
def opTime : Op → Option Int
  | Op.setSendBitrate _ => none
  | Op.setMinMaxBitrate _ _ => none
  | Op.setBitrates _ _ _ => none
  | Op.updateReceiverEstimate now _ => some now
  | Op.updateDelayBasedEstimate now _ => some now
  | Op.updateReceiverBlock _ _ _ now => some now
  | Op.updateEstimate now => some now

end SSBWE

namespace SSBWE

/-! ### Properties of the capping function -/

/-- Fields `CapBitrateToThresholds` reads: REMB, delay-based, max, min. -/
def CapFieldsEq (t s : EstState) : Prop :=
  t.bwe_incoming = s.bwe_incoming ∧
  t.delay_based_bitrate_bps = s.delay_based_bitrate_bps ∧
  t.max_bitrate_configured = s.max_bitrate_configured ∧
  t.min_bitrate_configured = s.min_bitrate_configured

lemma capFieldsEq_refl (s : EstState) : CapFieldsEq s s := ⟨rfl, rfl, rfl, rfl⟩

lemma capFieldsEq_trans {t u s : EstState} (h1 : CapFieldsEq t u) (h2 : CapFieldsEq u s) :
    CapFieldsEq t s := by
  obtain ⟨a1, a2, a3, a4⟩ := h1
  obtain ⟨b1, b2, b3, b4⟩ := h2
  exact ⟨a1.trans b1, a2.trans b2, a3.trans b3, a4.trans b4⟩

lemma capValue_congr {t s : EstState} (h : CapFieldsEq t s) (b : Nat) :
    capValue t b = capValue s b := by
  obtain ⟨h1, h2, h3, h4⟩ := h
  unfold capValue capRaw capMax capDelay capRemb
  rw [h1, h2, h3, h4]

lemma capValue_inBounds (s : EstState) (b : Nat)
    (h : s.min_bitrate_configured ≤ s.max_bitrate_configured) :
    s.min_bitrate_configured ≤ capValue s b ∧ capValue s b ≤ s.max_bitrate_configured := by
  unfold capValue capRaw capMax capDelay capRemb
  split_ifs <;> omega

lemma capValue_mono (s : EstState) {b1 b2 : Nat} (h : b1 ≤ b2) :
    capValue s b1 ≤ capValue s b2 := by
  unfold capValue capRaw capMax capDelay capRemb
  split_ifs <;> omega

lemma capRaw_le_self (s : EstState) (b : Nat) : capRaw s b ≤ b := by
  unfold capRaw capMax capDelay capRemb
  split_ifs <;> omega

lemma capRemb_fix (s : EstState) {b r : Nat} (h : r ≤ capRemb s b) : capRemb s r = r := by
  unfold capRemb at *
  split_ifs at * <;> omega

lemma capDelay_fix (s : EstState) {b r : Nat} (h : r ≤ capDelay s b) : capDelay s r = r := by
  unfold capDelay at *
  split_ifs at * <;> omega

lemma capMax_fix (s : EstState) {b r : Nat} (h : r ≤ capMax s b) : capMax s r = r := by
  unfold capMax at *
  split_ifs at * <;> omega

lemma capRemb_le (s : EstState) (b : Nat) : capRemb s b ≤ b := by
  unfold capRemb; split_ifs <;> omega

lemma capDelay_le (s : EstState) (b : Nat) : capDelay s b ≤ b := by
  unfold capDelay; split_ifs <;> omega

lemma capRaw_idem (s : EstState) (b : Nat) : capRaw s (capRaw s b) = capRaw s b := by
  have h0 : capRaw s b = capMax s (capDelay s (capRemb s b)) := rfl
  have h1 : capRemb s (capRaw s b) = capRaw s b := by
    apply capRemb_fix s (b := b)
    calc capRaw s b = capMax s (capDelay s (capRemb s b)) := rfl
    _ ≤ capDelay s (capRemb s b) := by unfold capMax; split_ifs <;> omega
    _ ≤ capRemb s b := capDelay_le s _
  have h2 : capDelay s (capRaw s b) = capRaw s b := by
    apply capDelay_fix s (b := capRemb s b)
    calc capRaw s b = capMax s (capDelay s (capRemb s b)) := rfl
    _ ≤ capDelay s (capRemb s b) := by unfold capMax; split_ifs <;> omega
  have h3 : capMax s (capRaw s b) = capRaw s b := by
    apply capMax_fix s (b := capDelay s (capRemb s b))
    exact le_of_eq rfl
  show capMax s (capDelay s (capRemb s (capRaw s b))) = capRaw s b
  rw [h1, h2, h3]

lemma capValue_idem (s : EstState) (b : Nat) :
    capValue s (capValue s b) = capValue s b := by
  unfold capValue
  by_cases h : capRaw s b < s.min_bitrate_configured
  · rw [if_pos h]
    have hle := capRaw_le_self s s.min_bitrate_configured
    split_ifs with h2 <;> omega
  · rw [if_neg h]
    rw [capRaw_idem s b, if_neg h]

lemma applyCap_capFields (s : EstState) (now : Int) (b : Nat) :
    CapFieldsEq (applyCap s now b) s := ⟨rfl, rfl, rfl, rfl⟩

end SSBWE

namespace SSBWE

/-! ### C7: idempotence of the cap -/

/-- C7: the capping function is idempotent on the bitrate value: for every
state and every bitrate `b`, `CapBitrateToThresholds` applied (in the state
produced by the first call) to the result of `CapBitrateToThresholds(b)`
returns that result unchanged.  The caps apply in source order: REMB ceiling,
delay-based ceiling, configured max, configured min. -/
theorem C7_cap_idempotent (s : EstState) (now1 now2 : Int) (b : Nat) :
    (applyCap (applyCap s now1 b) now2 ((applyCap s now1 b).bitrate)).bitrate
      = (applyCap s now1 b).bitrate := by
  show capValue (applyCap s now1 b) (capValue s b) = capValue s b
  rw [capValue_congr (applyCap_capFields s now1 b) (capValue s b)]
  exact capValue_idem s b

/-! ### C1: configured bounds on the current estimate -/

/-- Bitrate of `CurrentEstimate` lies within the configured bounds. -/
def InBounds (s : EstState) : Prop :=
  s.min_bitrate_configured ≤ (CurrentEstimate s).1 ∧
  (CurrentEstimate s).1 ≤ s.max_bitrate_configured

instance (s : EstState) : Decidable (InBounds s) := by
  unfold InBounds; infer_instance

lemma lossControl_capFields (s : EstState) (now : Int) :
    CapFieldsEq (lossControl s now) s := by
  unfold lossControl
  split_ifs <;> exact ⟨rfl, rfl, rfl, rfl⟩

lemma timeoutBranch_capFields (s : EstState) (now : Int) :
    CapFieldsEq (timeoutBranch s now) s := by
  unfold timeoutBranch
  split_ifs <;> exact ⟨rfl, rfl, rfl, rfl⟩

lemma preCapState_capFields (s : EstState) (now : Int) :
    CapFieldsEq (preCapState s now) s := by
  unfold preCapState
  split_ifs
  · exact lossControl_capFields s now
  · exact timeoutBranch_capFields s now

lemma logAndCap_capFields (s : EstState) (now : Int) :
    CapFieldsEq (logAndCap s now) s := by
  unfold logAndCap
  split_ifs <;> exact ⟨rfl, rfl, rfl, rfl⟩

lemma logAndCap_bitrate (s : EstState) (now : Int) :
    (logAndCap s now).bitrate = capValue s s.bitrate := by
  unfold logAndCap
  split_ifs <;> rfl

lemma tail_capFields (s : EstState) (now : Int) :
    CapFieldsEq (updateEstimateTail s now) s := by
  unfold updateEstimateTail
  split_ifs
  · exact ⟨rfl, rfl, rfl, rfl⟩
  · exact capFieldsEq_trans (logAndCap_capFields _ _)
      (capFieldsEq_trans (preCapState_capFields _ _) ⟨rfl, rfl, rfl, rfl⟩)

lemma tail_bitrate_shape (s : EstState) (now : Int) :
    ∃ b, (updateEstimateTail s now).bitrate = capValue s b := by
  unfold updateEstimateTail
  split_ifs
  · exact ⟨(UpdateMinHistory s now).bitrate,
      capValue_congr (capFieldsEq_refl _ : CapFieldsEq (UpdateMinHistory s now) s) _⟩
  · refine ⟨(preCapState (UpdateMinHistory s now) now).bitrate, ?_⟩
    rw [logAndCap_bitrate]
    exact capValue_congr
      (capFieldsEq_trans (preCapState_capFields _ _) (capFieldsEq_refl _)) _

lemma adoptRemb_capFields (s : EstState) (now : Int) :
    CapFieldsEq (adoptRemb s now) s := by
  unfold adoptRemb
  split_ifs
  · exact applyCap_capFields s now _
  · exact capFieldsEq_refl s

lemma adoptDelay_capFields (s : EstState) (now : Int) :
    CapFieldsEq (adoptDelay s now) s := by
  unfold adoptDelay
  split_ifs
  · exact applyCap_capFields s now _
  · exact capFieldsEq_refl s

lemma UpdateEstimate_capFields (s : EstState) (now : Int) :
    CapFieldsEq (UpdateEstimate s now) s := by
  have had : CapFieldsEq (adoptDelay (adoptRemb s now) now) s :=
    capFieldsEq_trans (adoptDelay_capFields _ _) (adoptRemb_capFields _ _)
  unfold UpdateEstimate
  split_ifs
  · exact had
  · exact capFieldsEq_trans (tail_capFields _ _) had
  · exact tail_capFields s now

lemma adoptRemb_id (s : EstState) (now : Int) (h : ¬ s.bitrate < s.bwe_incoming) :
    adoptRemb s now = s := by
  unfold adoptRemb; exact if_neg h

lemma adoptDelay_id (s : EstState) (now : Int)
    (h : ¬ s.bitrate < s.delay_based_bitrate_bps) :
    adoptDelay s now = s := by
  unfold adoptDelay; exact if_neg h

lemma UpdateEstimate_bitrate_shape (s : EstState) (now : Int) :
    ∃ b, (UpdateEstimate s now).bitrate = capValue s b := by
  have had : CapFieldsEq (adoptDelay (adoptRemb s now) now) s :=
    capFieldsEq_trans (adoptDelay_capFields _ _) (adoptRemb_capFields _ _)
  unfold UpdateEstimate
  split_ifs with h0 h1
  · -- adoption changed the bitrate: the new value is the cap of one of the hints
    show ∃ b, (adoptDelay (adoptRemb s now) now).bitrate = capValue s b
    by_cases ha : (adoptRemb s now).bitrate < (adoptRemb s now).delay_based_bitrate_bps
    · refine ⟨(adoptRemb s now).delay_based_bitrate_bps, ?_⟩
      unfold adoptDelay
      rw [if_pos ha]
      show capValue (adoptRemb s now) _ = _
      exact capValue_congr (adoptRemb_capFields s now) _
    · rw [adoptDelay_id _ _ ha]
      by_cases hb : s.bitrate < s.bwe_incoming
      · refine ⟨s.bwe_incoming, ?_⟩
        unfold adoptRemb
        rw [if_pos hb]
        rfl
      · exfalso
        apply h1
        rw [adoptDelay_id _ _ ha, adoptRemb_id _ _ hb]
  · obtain ⟨b, hb⟩ := tail_bitrate_shape (adoptDelay (adoptRemb s now) now) now
    exact ⟨b, by rw [hb]; exact capValue_congr had b⟩
  · exact tail_bitrate_shape s now

/-- C1 counterexample: the claim fails as stated.  `set_send_bitrate` stores
the value directly (the source comments that the new value is deliberately not
capped), so after `set_send_bitrate(2_000_000_000)` on a freshly constructed
estimator (default max 1_000_000_000) the estimate returned by
`current_estimate` exceeds `max_bitrate_configured`. -/
theorem C1_cex :
    (0 : Int) < 2000000000 ∧
    Op.setSendBitrate 2000000000 ∈ [Op.setSendBitrate 2000000000] ∧
    ¬ InBounds (run 10000 (defaultInit 10000 false) [Op.setSendBitrate 2000000000]) := by
  decide

lemma InBounds_applyCap (s : EstState) (now : Int) (b : Nat)
    (h : s.min_bitrate_configured ≤ s.max_bitrate_configured) :
    InBounds (applyCap s now b) := by
  unfold InBounds CurrentEstimate applyCap
  dsimp only
  exact capValue_inBounds s b h

/-- C1 (amended): the operations that route the bitrate through
`CapBitrateToThresholds` — `update_receiver_estimate`,
`update_delay_based_estimate` and `update_estimate` — leave the estimate
returned by `current_estimate` within `[min_bitrate_configured,
max_bitrate_configured]`, provided the configured bounds are ordered;
`set_send_bitrate` bypasses the cap and can leave the estimate outside the
bounds until the next capping operation. -/
theorem C1_capped_ops_within_bounds (s : EstState) (now : Int) (bw db : Nat)
    (h : s.min_bitrate_configured ≤ s.max_bitrate_configured) :
    InBounds (UpdateReceiverEstimate s now bw) ∧
    InBounds (UpdateDelayBasedEstimate s now db) ∧
    InBounds (UpdateEstimate s now) := by
  refine ⟨?_, ?_, ?_⟩
  · unfold UpdateReceiverEstimate
    exact InBounds_applyCap _ now _ h
  · unfold UpdateDelayBasedEstimate
    exact InBounds_applyCap _ now _ h
  · obtain ⟨cf1, cf2, cf3, cf4⟩ := UpdateEstimate_capFields s now
    obtain ⟨b, hb⟩ := UpdateEstimate_bitrate_shape s now
    have hbd := capValue_inBounds s b h
    unfold InBounds CurrentEstimate
    rw [hb, cf3, cf4]
    exact hbd

/-- C1 witness: the amended theorem at a concrete input. -/
theorem C1_witness :
    (defaultInit 10000 false).min_bitrate_configured ≤
      (defaultInit 10000 false).max_bitrate_configured ∧
    (InBounds (UpdateReceiverEstimate (defaultInit 10000 false) 0 50000) ∧
     InBounds (UpdateDelayBasedEstimate (defaultInit 10000 false) 0 50000) ∧
     InBounds (UpdateEstimate (defaultInit 10000 false) 0)) :=
  ⟨by decide, C1_capped_ops_within_bounds (defaultInit 10000 false) 0 50000 50000 (by decide)⟩

end SSBWE

namespace SSBWE

/-! ### C2: the `UpdateUmaStats` call made by `UpdateReceiverBlock` -/

/-- C2 counterexample: the claim fails as stated.  With `packet_count = 10` on
a fresh estimator the accumulated expected count stays below 20, and the early
return in `UpdateReceiverBlock` skips the `UpdateUmaStats` call entirely
(the call record is `none`, not the claimed call). -/
theorem C2_cex :
    ¬ ((UpdateReceiverBlock (defaultInit 10000 false) 0 0 10 0).2 =
        some (0, 0, Int.fdiv ((0 : Int) * 10) 256)) := by
  decide

/-- C2 (amended): `update_receiver_block` invokes `update_uma_stats` with
`lost_packets = (fraction_loss_q8 * packet_count) >> 8` on every call except
those with `packet_count > 0` whose accumulated expected packet count stays
below 20 — on that early-return path the call is skipped.  Calls with
`packet_count <= 0` (in particular zero) do invoke it. -/
theorem C2_uma_call_condition (s : EstState) (fl : Nat) (rtt n now : Int) :
    (UpdateReceiverBlock s fl rtt n now).2 =
      if 0 < n ∧ s.expected_packets_since_last_loss_update + n < 20 then none
      else some (now, rtt, Int.fdiv ((fl : Int) * n) 256) := by
  unfold UpdateReceiverBlock
  dsimp only
  by_cases h1 : 0 < n
  · rw [if_pos h1]
    by_cases h2 : s.first_report_time_ms = -1 <;>
      simp only [if_pos, if_neg, h2, if_true, if_false, reduceIte] <;>
      by_cases h3 : s.expected_packets_since_last_loss_update + n < 20 <;>
      simp [h1, h3]
  · rw [if_neg h1]
    by_cases h2 : s.first_report_time_ms = -1 <;> simp [h2] <;> omega

/-! ### C3: ordering of the configured bounds -/

/-- C3 counterexample: the claim fails as stated.  `set_min_max_bitrate` with
`min = 2_000_000_000 >= 0` and `max = 0` resets `max_bitrate_configured` to the
default 1_000_000_000, which is below the just-configured minimum. -/
theorem C3_cex :
    (0 : Int) ≤ 2000000000 ∧
    ¬ ((SetMinMaxBitrate 10000 (defaultInit 10000 false) 2000000000 0).min_bitrate_configured ≤
       (SetMinMaxBitrate 10000 (defaultInit 10000 false) 2000000000 0).max_bitrate_configured) := by
  decide

/-- C3 (amended): after `set_min_max_bitrate(min, max)` with `min >= 0`,
`min_bitrate_configured <= max_bitrate_configured` holds whenever `max > 0`;
when `max <= 0` (the reset-to-default case) it holds provided
`max(min, system_min)` does not exceed the default maximum 1_000_000_000 —
otherwise the reset default is below the configured minimum, as the
counterexample shows. -/
theorem C3_min_le_max_amended (sm : Int) (s : EstState) (mn mx : Int)
    (h : 0 ≤ mn) :
    (0 < mx →
      (SetMinMaxBitrate sm s mn mx).min_bitrate_configured ≤
      (SetMinMaxBitrate sm s mn mx).max_bitrate_configured) ∧
    (mx ≤ 0 → max mn sm ≤ 1000000000 →
      (SetMinMaxBitrate sm s mn mx).min_bitrate_configured ≤
      (SetMinMaxBitrate sm s mn mx).max_bitrate_configured) := by
  unfold SetMinMaxBitrate toU32
  dsimp only
  constructor
  · intro hmx
    rw [if_pos hmx]
    exact Nat.le_max_left _ _
  · intro hmx hle
    rw [if_neg (not_lt.mpr hmx)]
    have h0 : (0 : Int) ≤ max mn sm := le_trans h (le_max_left mn sm)
    generalize max mn sm = m at h0 hle
    omega

/-- C3 witness: the amended theorem at a concrete input
(`min = 50_000`, `max = 0`). -/
theorem C3_witness :
    (SetMinMaxBitrate 10000 (defaultInit 10000 false) 50000 0).min_bitrate_configured ≤
    (SetMinMaxBitrate 10000 (defaultInit 10000 false) 50000 0).max_bitrate_configured :=
  (C3_min_le_max_amended 10000 (defaultInit 10000 false) 50000 0 (by decide)).2
    (by decide) (by decide)

/-! ### C10: frame of `UpdateReceiverBlock` with a nonpositive packet count -/

/-- Fields `UpdateReceiverBlock` must leave unchanged when
`number_of_packets <= 0`: everything except `last_feedback_ms`,
`first_report_time_ms`, `last_round_trip_time_ms` and the metrics-emission
bookkeeping. -/
def ReceiverBlockFrame (t s : EstState) : Prop :=
  t.bitrate = s.bitrate ∧
  t.last_fraction_loss = s.last_fraction_loss ∧
  t.has_decreased_since_last_fraction_loss = s.has_decreased_since_last_fraction_loss ∧
  t.last_packet_report_ms = s.last_packet_report_ms ∧
  t.lost_packets_since_last_loss_update_Q8 = s.lost_packets_since_last_loss_update_Q8 ∧
  t.expected_packets_since_last_loss_update = s.expected_packets_since_last_loss_update ∧
  t.min_bitrate_configured = s.min_bitrate_configured ∧
  t.max_bitrate_configured = s.max_bitrate_configured ∧
  t.last_low_bitrate_log_ms = s.last_low_bitrate_log_ms ∧
  t.last_timeout_ms = s.last_timeout_ms ∧
  t.last_logged_fraction_loss = s.last_logged_fraction_loss ∧
  t.bwe_incoming = s.bwe_incoming ∧
  t.delay_based_bitrate_bps = s.delay_based_bitrate_bps ∧
  t.time_last_decrease_ms = s.time_last_decrease_ms ∧
  t.last_rtc_event_log_ms = s.last_rtc_event_log_ms ∧
  t.in_timeout_experiment = s.in_timeout_experiment ∧
  t.low_loss_threshold = s.low_loss_threshold ∧
  t.high_loss_threshold = s.high_loss_threshold ∧
  t.bitrate_threshold_bps = s.bitrate_threshold_bps ∧
  t.min_bitrate_history = s.min_bitrate_history

lemma UpdateUmaStats_frame (s : EstState) (now rtt lost : Int) :
    ReceiverBlockFrame (UpdateUmaStats s now rtt lost) s := by
  unfold UpdateUmaStats
  dsimp only
  split_ifs <;>
    exact ⟨rfl, rfl, rfl, rfl, rfl, rfl, rfl, rfl, rfl, rfl, rfl, rfl, rfl, rfl,
           rfl, rfl, rfl, rfl, rfl, rfl⟩

/-- C10: a call to `update_receiver_block` with `packet_count <= 0` changes
none of the loss-control fields: the bitrate, the loss fraction, the decrease
latch, the packet-report timestamp, both accumulators, and every other field
except `last_feedback_ms`, `first_report_time_ms`, `last_round_trip_time_ms`
and the metrics-emission state, are unchanged. -/
theorem C10_frame_nonpositive_packets (s : EstState) (fl : Nat) (rtt n now : Int)
    (h : n ≤ 0) :
    ReceiverBlockFrame ((UpdateReceiverBlock s fl rtt n now).1) s := by
  unfold UpdateReceiverBlock
  dsimp only
  rw [if_neg (not_lt.mpr h)]
  by_cases h2 : s.first_report_time_ms = -1 <;>
    simp only [h2, if_true, if_false, reduceIte] <;>
    exact UpdateUmaStats_frame _ _ _ _

/-- C10 witness: the frame theorem at a concrete input (`packet_count = 0`). -/
theorem C10_witness :
    ReceiverBlockFrame ((UpdateReceiverBlock (defaultInit 10000 false) 3 50 0 7).1)
      (defaultInit 10000 false) :=
  C10_frame_nonpositive_packets (defaultInit 10000 false) 3 50 0 7 (by decide)

end SSBWE

namespace SSBWE

/-! ### C4: the feedback-timeout branch of `UpdateEstimate` -/

lemma UpdateEstimate_no_adopt (s : EstState) (now : Int)
    (h1 : s.bwe_incoming ≤ s.bitrate) (h2 : s.delay_based_bitrate_bps ≤ s.bitrate) :
    UpdateEstimate s now = updateEstimateTail s now := by
  unfold UpdateEstimate
  rw [adoptRemb_id s now (not_lt.mpr h1), adoptDelay_id s now (not_lt.mpr h2)]
  split_ifs with h0 hne
  · exact absurd rfl hne
  · rfl
  · rfl

lemma timeoutBranch_fire (s : EstState) (now : Int)
    (hfb : 4500 < now - s.last_feedback_ms)
    (hwin : s.last_timeout_ms = -1 ∨ 1000 < now - s.last_timeout_ms)
    (hexp : s.in_timeout_experiment = true) :
    timeoutBranch s now =
      { s with
        bitrate := 4 * s.bitrate / 5
        lost_packets_since_last_loss_update_Q8 := 0
        expected_packets_since_last_loss_update := 0
        last_timeout_ms := now } := by
  unfold timeoutBranch
  rw [if_pos ⟨hfb, hwin⟩, if_pos hexp]

lemma timeoutBranch_noexp (s : EstState) (now : Int)
    (hexp : s.in_timeout_experiment = false) :
    timeoutBranch s now = s := by
  unfold timeoutBranch
  split_ifs with hc he
  · rw [hexp] at he; exact absurd he (by simp)
  · rfl
  · rfl

lemma timeoutBranch_window_closed (s : EstState) (now : Int)
    (hwin : s.last_timeout_ms ≠ -1 ∧ now - s.last_timeout_ms ≤ 1000) :
    timeoutBranch s now = s := by
  unfold timeoutBranch
  rw [if_neg ?_]
  rintro ⟨-, hor⟩
  rcases hor with heq | hlt
  · exact hwin.1 heq
  · omega

lemma logAndCap_frame (s : EstState) (now : Int) :
    (logAndCap s now).lost_packets_since_last_loss_update_Q8 =
      s.lost_packets_since_last_loss_update_Q8 ∧
    (logAndCap s now).expected_packets_since_last_loss_update =
      s.expected_packets_since_last_loss_update ∧
    (logAndCap s now).last_timeout_ms = s.last_timeout_ms := by
  unfold logAndCap
  split_ifs <;> exact ⟨rfl, rfl, rfl⟩

/-- C4: on an `update_estimate(now_ms)` tick with a stale packet report
(`now - last_packet_report_ms >= 1800`), a timed-out feedback
(`now - last_feedback_ms > 4500`), a report received at least once, and
outside the startup regime (the loss fraction is nonzero or the start phase is
over, so the startup-trust block is skipped whatever the REMB and delay-based
hints are): within the timeout window gate, if the timeout experiment is
enabled the pre-cap bitrate becomes `bitrate * 0.8` (embedded exactly as
`4 * bitrate / 5`), both loss accumulators are zeroed and
`last_timeout_ms := now`; if the experiment is disabled none of these fields
change (the bitrate is only re-capped); and when the tick falls within 1000 ms
of `last_timeout_ms` no timeout cut is made either. -/
theorem C4_feedback_timeout (s : EstState) (now : Int)
    (hreport : s.last_packet_report_ms ≠ -1)
    (hpkt : ¬ (now - s.last_packet_report_ms < 1800))
    (hfb : 4500 < now - s.last_feedback_ms)
    (hstart : s.last_fraction_loss ≠ 0 ∨ ¬ IsInStartPhase s now) :
    ((s.last_timeout_ms = -1 ∨ 1000 < now - s.last_timeout_ms) →
      (s.in_timeout_experiment = true →
        (UpdateEstimate s now).bitrate = capValue s (4 * s.bitrate / 5) ∧
        (UpdateEstimate s now).lost_packets_since_last_loss_update_Q8 = 0 ∧
        (UpdateEstimate s now).expected_packets_since_last_loss_update = 0 ∧
        (UpdateEstimate s now).last_timeout_ms = now) ∧
      (s.in_timeout_experiment = false →
        (UpdateEstimate s now).bitrate = capValue s s.bitrate ∧
        (UpdateEstimate s now).lost_packets_since_last_loss_update_Q8 =
          s.lost_packets_since_last_loss_update_Q8 ∧
        (UpdateEstimate s now).expected_packets_since_last_loss_update =
          s.expected_packets_since_last_loss_update ∧
        (UpdateEstimate s now).last_timeout_ms = s.last_timeout_ms)) ∧
    ((s.last_timeout_ms ≠ -1 ∧ now - s.last_timeout_ms ≤ 1000) →
      (UpdateEstimate s now).bitrate = capValue s s.bitrate ∧
      (UpdateEstimate s now).lost_packets_since_last_loss_update_Q8 =
        s.lost_packets_since_last_loss_update_Q8 ∧
      (UpdateEstimate s now).expected_packets_since_last_loss_update =
        s.expected_packets_since_last_loss_update ∧
      (UpdateEstimate s now).last_timeout_ms = s.last_timeout_ms) := by
  have hstart' : ¬ (s.last_fraction_loss = 0 ∧ IsInStartPhase s now) := by
    rintro ⟨h0, hph⟩
    rcases hstart with h | h
    · exact h h0
    · exact h hph
  unfold UpdateEstimate
  rw [if_neg hstart']
  unfold updateEstimateTail
  rw [if_neg hreport]
  have hpc : preCapState (UpdateMinHistory s now) now =
      timeoutBranch (UpdateMinHistory s now) now := by
    unfold preCapState
    exact if_neg hpkt
  rw [hpc]
  constructor
  · intro hwin
    constructor
    · intro hexp
      rw [timeoutBranch_fire (UpdateMinHistory s now) now hfb hwin hexp]
      obtain ⟨f1, f2, f3⟩ := logAndCap_frame
        { UpdateMinHistory s now with
          bitrate := 4 * (UpdateMinHistory s now).bitrate / 5
          lost_packets_since_last_loss_update_Q8 := 0
          expected_packets_since_last_loss_update := 0
          last_timeout_ms := now } now
      refine ⟨?_, f1, f2, f3⟩
      rw [logAndCap_bitrate]
      exact capValue_congr ⟨rfl, rfl, rfl, rfl⟩ _
    · intro hexp
      rw [timeoutBranch_noexp (UpdateMinHistory s now) now hexp]
      obtain ⟨f1, f2, f3⟩ := logAndCap_frame (UpdateMinHistory s now) now
      refine ⟨?_, f1, f2, f3⟩
      rw [logAndCap_bitrate]
      exact capValue_congr ⟨rfl, rfl, rfl, rfl⟩ _
  · intro hwin
    rw [timeoutBranch_window_closed (UpdateMinHistory s now) now hwin]
    obtain ⟨f1, f2, f3⟩ := logAndCap_frame (UpdateMinHistory s now) now
    refine ⟨?_, f1, f2, f3⟩
    rw [logAndCap_bitrate]
    exact capValue_congr ⟨rfl, rfl, rfl, rfl⟩ _

/-- Concrete state for the C4 witness: experiment enabled, bitrate 1_000_000,
last feedback and last packet report at t = 0. -/
def c4State : EstState :=
  { defaultInit 10000 true with
    bitrate := 1000000
    last_feedback_ms := 0
    last_packet_report_ms := 0
    first_report_time_ms := 0 }

/-- C4 witness: the theorem at the spec's literal timeout scenario
(tick at t = 5000 cuts 1_000_000 to 800_000). -/
theorem C4_witness :
    (UpdateEstimate c4State 5000).bitrate = capValue c4State (4 * c4State.bitrate / 5) ∧
    (UpdateEstimate c4State 5000).lost_packets_since_last_loss_update_Q8 = 0 ∧
    (UpdateEstimate c4State 5000).expected_packets_since_last_loss_update = 0 ∧
    (UpdateEstimate c4State 5000).last_timeout_ms = 5000 ∧
    (UpdateEstimate c4State 5000).bitrate = 800000 := by
  have h := C4_feedback_timeout c4State 5000 (by decide) (by decide) (by decide)
    (Or.inr (by decide))
  have h2 := (h.1 (Or.inl (by decide))).1 (by decide)
  exact ⟨h2.1, h2.2.1, h2.2.2.1, h2.2.2.2, by decide⟩

end SSBWE

namespace SSBWE

/-! ### C5, C6: the feedback-fresh loss-based control -/

lemma LossFrac.le_trans {a b c : LossFrac} (ha0 : 0 ≤ a.den) (hb : 0 < b.den)
    (hc0 : 0 ≤ c.den) (h1 : a.le b) (h2 : b.le c) : a.le c := by
  unfold LossFrac.le at h1 h2 ⊢
  have H1 : a.num * c.den * b.den ≤ b.num * a.den * c.den := by
    calc a.num * c.den * b.den = a.num * b.den * c.den := by ring
    _ ≤ b.num * a.den * c.den := mul_le_mul_of_nonneg_right h1 hc0
  have H2 : b.num * a.den * c.den ≤ c.num * a.den * b.den := by
    calc b.num * a.den * c.den = b.num * c.den * a.den := by ring
    _ ≤ c.num * b.den * a.den := mul_le_mul_of_nonneg_right h2 ha0
    _ = c.num * a.den * b.den := by ring
  exact le_of_mul_le_mul_right (H1.trans H2) hb

lemma UpdateEstimate_not_startup (s : EstState) (now : Int)
    (h : ¬ (s.last_fraction_loss = 0 ∧ IsInStartPhase s now)) :
    UpdateEstimate s now = updateEstimateTail s now := by
  unfold UpdateEstimate
  rw [if_neg h]

lemma lossControl_increase (s : EstState) (now : Int)
    (h : s.bitrate < s.bitrate_threshold_bps ∨
         LossFrac.le (q8 s.last_fraction_loss) s.low_loss_threshold) :
    lossControl s now =
      { s with bitrate :=
          ((54 * (s.min_bitrate_history.headD (0, 0)).2 + 25) / 50 + 1000) % 4294967296 } := by
  unfold lossControl
  rw [if_pos h]

lemma lossControl_decrease (s : EstState) (now : Int)
    (h1 : ¬ (s.bitrate < s.bitrate_threshold_bps ∨
             LossFrac.le (q8 s.last_fraction_loss) s.low_loss_threshold))
    (h2 : s.bitrate_threshold_bps < s.bitrate)
    (h3 : ¬ LossFrac.le (q8 s.last_fraction_loss) s.high_loss_threshold)
    (h4 : s.has_decreased_since_last_fraction_loss = false)
    (h5 : 300 + s.last_round_trip_time_ms ≤ now - s.time_last_decrease_ms) :
    lossControl s now =
      { s with
        time_last_decrease_ms := now
        bitrate := s.bitrate * (512 - s.last_fraction_loss) / 512
        has_decreased_since_last_fraction_loss := true } := by
  unfold lossControl
  rw [if_neg h1, if_pos h2, if_neg h3, if_pos ⟨by simp [h4], h5⟩]

lemma lossControl_decrease_gated (s : EstState) (now : Int)
    (h1 : ¬ (s.bitrate < s.bitrate_threshold_bps ∨
             LossFrac.le (q8 s.last_fraction_loss) s.low_loss_threshold))
    (h2 : s.bitrate_threshold_bps < s.bitrate)
    (h3 : ¬ LossFrac.le (q8 s.last_fraction_loss) s.high_loss_threshold)
    (hgate : s.has_decreased_since_last_fraction_loss = true ∨
             now - s.time_last_decrease_ms < 300 + s.last_round_trip_time_ms) :
    lossControl s now = s := by
  unfold lossControl
  rw [if_neg h1, if_pos h2, if_neg h3, if_neg ?_]
  rintro ⟨hnd, hle⟩
  rcases hgate with h | h
  · exact hnd (by simp [h])
  · omega

lemma logAndCap_frame2 (s : EstState) (now : Int) :
    (logAndCap s now).time_last_decrease_ms = s.time_last_decrease_ms ∧
    (logAndCap s now).has_decreased_since_last_fraction_loss =
      s.has_decreased_since_last_fraction_loss ∧
    (logAndCap s now).min_bitrate_history = s.min_bitrate_history := by
  unfold logAndCap
  split_ifs <;> exact ⟨rfl, rfl, rfl⟩

/-- C5: in the feedback-fresh branch, with the bitrate above the loss
threshold and the Q8 loss fraction above `high_loss_threshold` (thresholds
well formed: positive denominators, `low <= high`, `high >= 0`), the bitrate
decreases to `bitrate * (512 - last_fraction_loss) / 512` (then capped) if and
only if `has_decreased_since_last_fraction_loss` is unset and at least
`300 ms + rtt` have elapsed since the last decrease; on firing
`time_last_decrease_ms := now` and the latch is set, so a subsequent tick with
the same loss fraction takes the gated branch and does not decrease again. -/
theorem C5_high_loss_decrease (s : EstState) (now : Int)
    (hreport : s.last_packet_report_ms ≠ -1)
    (hfresh : now - s.last_packet_report_ms < 1800)
    (hthr : s.bitrate_threshold_bps < s.bitrate)
    (hloss : ¬ LossFrac.le (q8 s.last_fraction_loss) s.high_loss_threshold)
    (hlh : LossFrac.le s.low_loss_threshold s.high_loss_threshold)
    (hld : 0 < s.low_loss_threshold.den)
    (hhd : 0 < s.high_loss_threshold.den)
    (hhn : 0 ≤ s.high_loss_threshold.num) :
    ((s.has_decreased_since_last_fraction_loss = false ∧
      300 + s.last_round_trip_time_ms ≤ now - s.time_last_decrease_ms) →
      (UpdateEstimate s now).bitrate =
        capValue s (s.bitrate * (512 - s.last_fraction_loss) / 512) ∧
      (UpdateEstimate s now).time_last_decrease_ms = now ∧
      (UpdateEstimate s now).has_decreased_since_last_fraction_loss = true) ∧
    ((s.has_decreased_since_last_fraction_loss = true ∨
      now - s.time_last_decrease_ms < 300 + s.last_round_trip_time_ms) →
      (UpdateEstimate s now).bitrate = capValue s s.bitrate ∧
      (UpdateEstimate s now).time_last_decrease_ms = s.time_last_decrease_ms ∧
      (UpdateEstimate s now).has_decreased_since_last_fraction_loss =
        s.has_decreased_since_last_fraction_loss) := by
  have hneq0 : s.last_fraction_loss ≠ 0 := by
    intro h0
    apply hloss
    unfold LossFrac.le q8
    rw [h0]
    simp
    positivity
  have hnotlow : ¬ LossFrac.le (q8 s.last_fraction_loss) s.low_loss_threshold := by
    intro hlow
    exact hloss (LossFrac.le_trans (by norm_num [q8]) hld (le_of_lt hhd) hlow hlh)
  have hb1 : ¬ (s.bitrate < s.bitrate_threshold_bps ∨
      LossFrac.le (q8 s.last_fraction_loss) s.low_loss_threshold) := by
    rintro (h | h)
    · omega
    · exact hnotlow h
  rw [UpdateEstimate_not_startup s now (fun hc => hneq0 hc.1)]
  unfold updateEstimateTail
  rw [if_neg hreport]
  have hpc : preCapState (UpdateMinHistory s now) now =
      lossControl (UpdateMinHistory s now) now := by
    unfold preCapState
    exact if_pos hfresh
  rw [hpc]
  constructor
  · rintro ⟨h4, h5⟩
    rw [lossControl_decrease (UpdateMinHistory s now) now hb1 hthr hloss h4 h5]
    obtain ⟨f1, f2, f3⟩ := logAndCap_frame2
      { UpdateMinHistory s now with
        time_last_decrease_ms := now
        bitrate := (UpdateMinHistory s now).bitrate *
          (512 - (UpdateMinHistory s now).last_fraction_loss) / 512
        has_decreased_since_last_fraction_loss := true } now
    refine ⟨?_, f1, f2⟩
    rw [logAndCap_bitrate]
    exact capValue_congr ⟨rfl, rfl, rfl, rfl⟩ _
  · intro hgate
    rw [lossControl_decrease_gated (UpdateMinHistory s now) now hb1 hthr hloss hgate]
    obtain ⟨f1, f2, f3⟩ := logAndCap_frame2 (UpdateMinHistory s now) now
    refine ⟨?_, f1, f2⟩
    rw [logAndCap_bitrate]
    exact capValue_congr ⟨rfl, rfl, rfl, rfl⟩ _

/-- Concrete state for the C5 witness: the spec's literal decrease scenario
(500_000 bps, 25% loss, rtt 100, last decrease at 0). -/
def c5State : EstState :=
  { defaultInit 10000 false with
    bitrate := 500000
    last_feedback_ms := 4900
    last_packet_report_ms := 4900
    first_report_time_ms := 0
    last_fraction_loss := 64
    last_round_trip_time_ms := 100
    time_last_decrease_ms := 0
    min_bitrate_history := [(4900, 500000)] }

/-- C5 witness: the theorem at the concrete decrease scenario
(`500_000 * (512-64)/512 = 437_500`). -/
theorem C5_witness :
    (UpdateEstimate c5State 5000).bitrate =
      capValue c5State (c5State.bitrate * (512 - c5State.last_fraction_loss) / 512) ∧
    (UpdateEstimate c5State 5000).time_last_decrease_ms = 5000 ∧
    (UpdateEstimate c5State 5000).has_decreased_since_last_fraction_loss = true ∧
    (UpdateEstimate c5State 5000).bitrate = 437500 := by
  have h := (C5_high_loss_decrease c5State 5000 (by decide) (by decide) (by decide)
    (by decide) (by decide) (by decide) (by decide) (by decide)).1 ⟨by decide, by decide⟩
  exact ⟨h.1, h.2.1, h.2.2, by decide⟩

set_option maxRecDepth 8192 in
/-- C6: in the feedback-fresh branch, when the bitrate is below the loss
threshold or the Q8 loss fraction is at most `low_loss_threshold`, the pre-cap
bitrate becomes `round(1.08 * front of the refreshed min_bitrate_history) +
1000` (embedded exactly as `(54*f + 25)/50 + 1000`, in 32-bit arithmetic), and
the history is the refreshed sliding window.  The startup-adoption block is
inert because either the loss fraction is nonzero or the start phase is over. -/
theorem C6_low_loss_increase (s : EstState) (now : Int)
    (hreport : s.last_packet_report_ms ≠ -1)
    (hfresh : now - s.last_packet_report_ms < 1800)
    (hcond : s.bitrate < s.bitrate_threshold_bps ∨
             LossFrac.le (q8 s.last_fraction_loss) s.low_loss_threshold)
    (hstart : s.last_fraction_loss ≠ 0 ∨ ¬ IsInStartPhase s now) :
    (UpdateEstimate s now).bitrate =
      capValue s
        (((54 * ((updateMinHistoryList now s.bitrate s.min_bitrate_history).headD (0, 0)).2
           + 25) / 50 + 1000) % 4294967296) ∧
    (UpdateEstimate s now).min_bitrate_history =
      updateMinHistoryList now s.bitrate s.min_bitrate_history := by
  have hstart' : ¬ (s.last_fraction_loss = 0 ∧ IsInStartPhase s now) := by
    rintro ⟨h0, hs⟩
    rcases hstart with h | h
    · exact h h0
    · exact h hs
  rw [UpdateEstimate_not_startup s now hstart']
  unfold updateEstimateTail
  rw [if_neg hreport]
  have hpc : preCapState (UpdateMinHistory s now) now =
      lossControl (UpdateMinHistory s now) now := by
    unfold preCapState
    exact if_pos hfresh
  rw [hpc, lossControl_increase (UpdateMinHistory s now) now hcond]
  obtain ⟨f1, f2, f3⟩ := logAndCap_frame2
    { UpdateMinHistory s now with
      bitrate :=
        ((54 * ((UpdateMinHistory s now).min_bitrate_history.headD (0, 0)).2 + 25) / 50
          + 1000) % 4294967296 } now
  refine ⟨?_, f3⟩
  rw [logAndCap_bitrate]
  exact capValue_congr ⟨rfl, rfl, rfl, rfl⟩
    (((54 * ((updateMinHistoryList now s.bitrate s.min_bitrate_history).headD (0, 0)).2
       + 25) / 50 + 1000) % 4294967296)

/-- Concrete state for the C6 witness: steady 100_000 bps window, loss
fraction 2 (below the 2% default threshold). -/
def c6State : EstState :=
  { defaultInit 10000 false with
    bitrate := 100000
    last_feedback_ms := 2900
    last_packet_report_ms := 2900
    first_report_time_ms := 500
    last_fraction_loss := 2
    min_bitrate_history := [(2900, 100000)] }

/-- C6 witness: the theorem at the concrete increase scenario
(`round(100_000 * 1.08) + 1000 = 109_000`). -/
theorem C6_witness :
    (UpdateEstimate c6State 3000).bitrate =
      capValue c6State
        (((54 * ((updateMinHistoryList 3000 c6State.bitrate c6State.min_bitrate_history).headD
            (0, 0)).2 + 25) / 50 + 1000) % 4294967296) ∧
    (UpdateEstimate c6State 3000).min_bitrate_history =
      updateMinHistoryList 3000 c6State.bitrate c6State.min_bitrate_history ∧
    (UpdateEstimate c6State 3000).bitrate = 109000 := by
  have h := C6_low_loss_increase c6State 3000 (by decide) (by decide)
    (Or.inr (by decide)) (Or.inl (by decide))
  exact ⟨h.1, h.2, by decide⟩

end SSBWE

namespace SSBWE

/-! ### C8: startup-trust adoption and monotonicity -/

lemma adoptRemb_report (s : EstState) (now : Int) :
    (adoptRemb s now).last_packet_report_ms = s.last_packet_report_ms := by
  unfold adoptRemb
  split_ifs <;> rfl

lemma adoptDelay_report (s : EstState) (now : Int) :
    (adoptDelay s now).last_packet_report_ms = s.last_packet_report_ms := by
  unfold adoptDelay
  split_ifs <;> rfl

lemma tail_bitrate_noreport (t : EstState) (now : Int)
    (h : t.last_packet_report_ms = -1) :
    (updateEstimateTail t now).bitrate = capValue t t.bitrate := by
  unfold updateEstimateTail
  rw [if_pos h]
  show capValue (UpdateMinHistory t now) (UpdateMinHistory t now).bitrate = capValue t t.bitrate
  exact capValue_congr ⟨rfl, rfl, rfl, rfl⟩ t.bitrate

/-- Reachable state for the C8 counterexample: REMB 600_000 and delay-based
100_000 recorded first, then `set_send_bitrate(500_000)` (which does not cap). -/
def c8CexState : EstState :=
  run 10000 (defaultInit 10000 false)
    [Op.updateReceiverEstimate 0 600000,
     Op.updateDelayBasedEstimate 0 100000,
     Op.setSendBitrate 500000]

/-- C8 counterexample: the claim fails as stated.  In the start phase with
zero loss, the tick adopts the REMB hint 600_000 > 500_000 but caps it with
the delay-based ceiling 100_000, so the tick lowers the bitrate from 500_000
to 100_000. -/
theorem C8_cex :
    c8CexState.last_fraction_loss = 0 ∧ IsInStartPhase c8CexState 1000 ∧
    c8CexState.bitrate = 500000 ∧
    (UpdateEstimate c8CexState 1000).bitrate < c8CexState.bitrate := by
  decide

/-- C8 (amended): during the start phase with zero loss, an
`update_estimate` tick never lowers the bitrate provided the pre-tick bitrate
is itself a fixed point of the cap (`capValue s bitrate = bitrate`, i.e. it
does not exceed the active REMB/delay ceilings or the configured max) and no
packet report has been received yet.  The adoption caps the adopted hint, so
without that proviso the tick can lower the bitrate, as the counterexample
shows. -/
theorem C8_startup_monotone_amended (s : EstState) (now : Int)
    (h0 : s.last_fraction_loss = 0)
    (h1 : IsInStartPhase s now)
    (h2 : capValue s s.bitrate = s.bitrate)
    (h3 : s.last_packet_report_ms = -1) :
    s.bitrate ≤ (UpdateEstimate s now).bitrate := by
  have hAcf : CapFieldsEq (adoptRemb s now) s := adoptRemb_capFields s now
  have hAbit : s.bitrate ≤ (adoptRemb s now).bitrate ∧
      capValue s (adoptRemb s now).bitrate = (adoptRemb s now).bitrate := by
    unfold adoptRemb
    split_ifs with ha
    · constructor
      · show s.bitrate ≤ capValue s s.bwe_incoming
        calc s.bitrate = capValue s s.bitrate := h2.symm
        _ ≤ capValue s s.bwe_incoming := capValue_mono s (le_of_lt ha)
      · show capValue s (capValue s s.bwe_incoming) = capValue s s.bwe_incoming
        exact capValue_idem s _
    · exact ⟨le_refl _, h2⟩
  have hBcf : CapFieldsEq (adoptDelay (adoptRemb s now) now) s :=
    capFieldsEq_trans (adoptDelay_capFields _ _) hAcf
  have hBbit : s.bitrate ≤ (adoptDelay (adoptRemb s now) now).bitrate ∧
      capValue s (adoptDelay (adoptRemb s now) now).bitrate =
        (adoptDelay (adoptRemb s now) now).bitrate := by
    unfold adoptDelay
    split_ifs with hb
    · constructor
      · show s.bitrate ≤ capValue (adoptRemb s now) (adoptRemb s now).delay_based_bitrate_bps
        rw [capValue_congr hAcf]
        calc s.bitrate ≤ (adoptRemb s now).bitrate := hAbit.1
        _ = capValue s (adoptRemb s now).bitrate := hAbit.2.symm
        _ ≤ capValue s (adoptRemb s now).delay_based_bitrate_bps :=
            capValue_mono s (le_of_lt hb)
      · show capValue s
            (capValue (adoptRemb s now) (adoptRemb s now).delay_based_bitrate_bps) =
          capValue (adoptRemb s now) (adoptRemb s now).delay_based_bitrate_bps
        rw [capValue_congr hAcf]
        exact capValue_idem s _
    · exact hAbit
  have hBrep : (adoptDelay (adoptRemb s now) now).last_packet_report_ms = -1 := by
    rw [adoptDelay_report, adoptRemb_report]
    exact h3
  unfold UpdateEstimate
  rw [if_pos ⟨h0, h1⟩]
  split_ifs with hne
  · exact hBbit.1
  · push_neg at hne
    rw [tail_bitrate_noreport _ now hBrep, capValue_congr hBcf, hne, h2]

/-- Concrete state for the C8 witness: bitrate 50_000 inside all caps, no
report yet, fresh estimator timing. -/
def c8WitState : EstState :=
  { defaultInit 10000 false with bitrate := 50000 }

/-- C8 witness: the amended theorem at a concrete input. -/
theorem C8_witness :
    c8WitState.bitrate ≤ (UpdateEstimate c8WitState 100).bitrate :=
  C8_startup_monotone_amended c8WitState 100 (by decide) (by decide) (by decide) (by decide)

end SSBWE

namespace SSBWE

/-! ### C9: the sliding-window minimum history -/

/-- Adjacent-entry relation the deque actually maintains: nondecreasing
timestamps, strictly increasing bitrates. -/
def histR (p q : Int × Nat) : Prop := p.1 ≤ q.1 ∧ p.2 < q.2

instance : DecidableRel histR := fun p q => by
  unfold histR; infer_instance

/-- Maintained invariant of `min_bitrate_history_`. -/
def HistSorted (h : List (Int × Nat)) : Prop := List.Pairwise histR h

instance (h : List (Int × Nat)) : Decidable (HistSorted h) := by
  unfold HistSorted; infer_instance

/-- All timestamps in the history are at most `t`. -/
def HistLE (t : Int) (h : List (Int × Nat)) : Prop := ∀ p ∈ h, p.1 ≤ t

instance (t : Int) (h : List (Int × Nat)) : Decidable (HistLE t h) := by
  unfold HistLE; infer_instance

/-- The claim's reading: strictly increasing in both timestamp and bitrate. -/
def StrictHist (h : List (Int × Nat)) : Prop :=
  List.Pairwise (fun p q : Int × Nat => p.1 < q.1 ∧ p.2 < q.2) h

instance (h : List (Int × Nat)) : Decidable (StrictHist h) := by
  unfold StrictHist
  infer_instance

/-- Smallest bitrate among the non-expired entries of `h` and the new sample
`b` (an entry is expired when `now - time + 1 > 1000`). -/
def windowMin (now : Int) (b : Nat) (h : List (Int × Nat)) : Nat :=
  ((h.filter (fun p => decide (now - p.1 + 1 ≤ 1000))).map Prod.snd).foldr min b

lemma mem_dropWhile_lt (b : Nat) (l : List (Int × Nat))
    (hp : List.Pairwise (fun a c => histR c a) l) :
    ∀ a ∈ l.dropWhile (fun p => decide (b ≤ p.2)), a.2 < b := by
  induction l with
  | nil =>
    intro a ha
    simp [List.dropWhile] at ha
  | cons x t ih =>
    intro a ha
    rw [List.dropWhile_cons] at ha
    by_cases hx : b ≤ x.2
    · rw [if_pos (by simpa using hx)] at ha
      exact ih (List.pairwise_cons.mp hp).2 a ha
    · rw [if_neg (by simpa using hx)] at ha
      rcases List.mem_cons.mp ha with rfl | hat
      · omega
      · have hax : histR a x := (List.pairwise_cons.mp hp).1 a hat
        have := hax.2
        omega

lemma updateMinHistoryList_sorted (now : Int) (b : Nat) (h : List (Int × Nat))
    (hs : HistSorted h) (hle : HistLE now h) :
    HistSorted (updateMinHistoryList now b h) := by
  unfold updateMinHistoryList HistSorted
  rw [List.pairwise_append]
  have hs1 : List.Pairwise histR (h.dropWhile (fun p => decide (1000 < now - p.1 + 1))) :=
    List.Pairwise.sublist (List.dropWhile_sublist _) hs
  refine ⟨?_, List.pairwise_singleton _ _, ?_⟩
  · rw [List.pairwise_reverse]
    exact List.Pairwise.sublist (List.dropWhile_sublist _)
      (List.pairwise_reverse.mpr hs1)
  · intro a ha c hc
    rw [List.mem_singleton] at hc
    subst hc
    have ha1 := List.mem_reverse.mp ha
    have ha2 := (List.dropWhile_sublist _).subset ha1
    have ha3 := List.mem_reverse.mp ha2
    have ha4 := (List.dropWhile_sublist _).subset ha3
    constructor
    · exact hle a ha4
    · exact mem_dropWhile_lt b _ (List.pairwise_reverse.mpr hs1) a ha1

end SSBWE

namespace SSBWE

lemma le_foldr_min (a b : Nat) (l : List Nat) (hb : a ≤ b) (hl : ∀ v ∈ l, a ≤ v) :
    a ≤ List.foldr min b l := by
  induction l with
  | nil => simpa using hb
  | cons v t ih =>
    simp only [List.foldr_cons]
    exact le_min (hl v (List.mem_cons_self v t))
      (ih (fun w hw => hl w (List.mem_cons_of_mem v hw)))

lemma foldr_min_all_ge (b : Nat) (l : List Nat) (hl : ∀ v ∈ l, b ≤ v) :
    List.foldr min b l = b := by
  induction l with
  | nil => rfl
  | cons v t ih =>
    simp only [List.foldr_cons]
    rw [ih (fun w hw => hl w (List.mem_cons_of_mem v hw))]
    exact Nat.min_eq_right (hl v (List.mem_cons_self v t))

lemma dropWhile_expired_eq_filter (now : Int) (h : List (Int × Nat))
    (hs : List.Pairwise (fun p q : Int × Nat => p.1 ≤ q.1) h) :
    h.dropWhile (fun p => decide (1000 < now - p.1 + 1)) =
      h.filter (fun p => decide (now - p.1 + 1 ≤ 1000)) := by
  induction h with
  | nil => rfl
  | cons x t ih =>
    rw [List.dropWhile_cons, List.filter_cons]
    by_cases hx : 1000 < now - x.1 + 1
    · rw [if_pos (by simpa using hx), if_neg (by simp only [decide_eq_true_eq]; omega)]
      exact ih (List.pairwise_cons.mp hs).2
    · rw [if_neg (by simpa using hx), if_pos (by simp only [decide_eq_true_eq]; omega)]
      congr 1
      symm
      rw [List.filter_eq_self]
      intro a hat
      have hxa : x.1 ≤ a.1 := (List.pairwise_cons.mp hs).1 a hat
      simp only [decide_eq_true_eq]
      omega

lemma updateMinHistoryList_front (now : Int) (b : Nat) (h : List (Int × Nat))
    (hs : HistSorted h) (hle : HistLE now h) :
    ((updateMinHistoryList now b h).headD (0, 0)).2 = windowMin now b h := by
  have hst : List.Pairwise (fun p q : Int × Nat => p.1 ≤ q.1) h :=
    List.Pairwise.imp (fun hpq => hpq.1) hs
  unfold updateMinHistoryList windowMin
  rw [dropWhile_expired_eq_filter now h hst]
  set h1 := h.filter (fun p => decide (now - p.1 + 1 ≤ 1000)) with hh1
  have hs1 : List.Pairwise histR h1 := List.Pairwise.sublist (List.filter_sublist _) hs
  cases hd : h1.reverse.dropWhile (fun p => decide (b ≤ p.2)) with
  | nil =>
    have hall : ∀ x ∈ h1, b ≤ x.2 := by
      intro x hx
      have := List.dropWhile_eq_nil_iff.mp hd x (List.mem_reverse.mpr hx)
      simpa using this
    simp only [List.reverse_nil, List.nil_append, List.headD_cons]
    symm
    apply foldr_min_all_ge
    intro v hv
    obtain ⟨p, hp, rfl⟩ := List.mem_map.mp hv
    exact hall p hp
  | cons x xs =>
    have hdec : h1 = (x :: xs).reverse ++
        (h1.reverse.takeWhile (fun p => decide (b ≤ p.2))).reverse := by
      have h0 := List.takeWhile_append_dropWhile
        (p := fun p : Int × Nat => decide (b ≤ p.2)) (l := h1.reverse)
      rw [hd] at h0
      calc h1 = h1.reverse.reverse := (List.reverse_reverse h1).symm
      _ = ((h1.reverse.takeWhile (fun p => decide (b ≤ p.2))) ++ (x :: xs)).reverse := by
            rw [h0]
      _ = (x :: xs).reverse ++
            (h1.reverse.takeWhile (fun p => decide (b ≤ p.2))).reverse :=
            List.reverse_append _ _
    obtain ⟨z, zs, hz⟩ : ∃ z zs, (x :: xs).reverse = z :: zs := by
      cases hzz : (x :: xs).reverse with
      | nil => exact absurd (congrArg List.length hzz) (by simp)
      | cons z zs => exact ⟨z, zs, rfl⟩
    have hz_mem : z ∈ x :: xs := by
      have hm : z ∈ (x :: xs).reverse := by
        rw [hz]; exact List.mem_cons_self z zs
      exact List.mem_reverse.mp hm
    have hz_lt : z.2 < b := by
      refine mem_dropWhile_lt b h1.reverse (List.pairwise_reverse.mpr hs1) z ?_
      rw [hd]; exact hz_mem
    have hs1' : List.Pairwise histR
        (z :: (zs ++ (h1.reverse.takeWhile (fun p => decide (b ≤ p.2))).reverse)) := by
      rw [← List.cons_append, ← hz, ← hdec]
      exact hs1
    have hmin : ∀ y ∈ zs ++ (h1.reverse.takeWhile (fun p => decide (b ≤ p.2))).reverse,
        z.2 ≤ y.2 := fun y hy => le_of_lt ((List.pairwise_cons.mp hs1').1 y hy).2
    rw [hz]
    simp only [List.cons_append, List.headD_cons]
    conv_rhs => rw [hdec, hz]
    simp only [List.cons_append, List.map_cons, List.foldr_cons]
    symm
    apply Nat.min_eq_left
    apply le_foldr_min
    · exact le_of_lt hz_lt
    · intro v hv
      obtain ⟨p, hp, rfl⟩ := List.mem_map.mp hv
      exact hmin p hp

end SSBWE

namespace SSBWE

lemma lossControl_hist (s : EstState) (now : Int) :
    (lossControl s now).min_bitrate_history = s.min_bitrate_history := by
  unfold lossControl
  split_ifs <;> rfl

lemma timeoutBranch_hist (s : EstState) (now : Int) :
    (timeoutBranch s now).min_bitrate_history = s.min_bitrate_history := by
  unfold timeoutBranch
  split_ifs <;> rfl

lemma preCapState_hist (s : EstState) (now : Int) :
    (preCapState s now).min_bitrate_history = s.min_bitrate_history := by
  unfold preCapState
  split_ifs
  · exact lossControl_hist s now
  · exact timeoutBranch_hist s now

lemma adoptRemb_hist (s : EstState) (now : Int) :
    (adoptRemb s now).min_bitrate_history = s.min_bitrate_history := by
  unfold adoptRemb
  split_ifs <;> rfl

lemma adoptDelay_hist (s : EstState) (now : Int) :
    (adoptDelay s now).min_bitrate_history = s.min_bitrate_history := by
  unfold adoptDelay
  split_ifs <;> rfl

lemma UpdateUmaStats_hist (s : EstState) (now rtt lost : Int) :
    (UpdateUmaStats s now rtt lost).min_bitrate_history = s.min_bitrate_history := by
  unfold UpdateUmaStats
  dsimp only
  split_ifs <;> rfl

lemma tail_hist (s : EstState) (now : Int) :
    (updateEstimateTail s now).min_bitrate_history =
      updateMinHistoryList now s.bitrate s.min_bitrate_history := by
  unfold updateEstimateTail
  split_ifs
  · rfl
  · rw [(logAndCap_frame2 _ _).2.2, preCapState_hist]
    rfl

lemma UpdateEstimate_hist_sorted (s : EstState) (now : Int)
    (hs : HistSorted s.min_bitrate_history) (hle : HistLE now s.min_bitrate_history) :
    HistSorted (UpdateEstimate s now).min_bitrate_history := by
  unfold UpdateEstimate
  split_ifs with h0 hne
  · show HistSorted [(now, (adoptDelay (adoptRemb s now) now).bitrate)]
    unfold HistSorted
    exact List.pairwise_singleton _ _
  · show HistSorted (updateEstimateTail (adoptDelay (adoptRemb s now) now) now).min_bitrate_history
    rw [tail_hist, adoptDelay_hist, adoptRemb_hist]
    exact updateMinHistoryList_sorted now _ s.min_bitrate_history hs hle
  · rw [tail_hist]
    exact updateMinHistoryList_sorted now _ _ hs hle

lemma UpdateReceiverBlock_sorted (s : EstState) (fl : Nat) (rtt n t : Int)
    (hs : HistSorted s.min_bitrate_history) (hle : HistLE t s.min_bitrate_history) :
    HistSorted ((UpdateReceiverBlock s fl rtt n t).1).min_bitrate_history := by
  unfold UpdateReceiverBlock
  dsimp only
  by_cases h2 : s.first_report_time_ms = -1 <;>
    simp only [h2, if_true, if_false, reduceIte] <;>
    split_ifs with hn hex <;>
    first
      | exact hs
      | (rw [UpdateUmaStats_hist]
         first
           | exact hs
           | exact UpdateEstimate_hist_sorted _ t hs hle)

/-- Reachable state for the C9 counterexample: two `update_estimate` ticks at
the same timestamp 2500 push two entries with equal timestamps. -/
def c9CexState : EstState :=
  run 10000 (defaultInit 10000 false)
    [Op.setSendBitrate 100000,
     Op.updateReceiverBlock 0 0 25 2500,
     Op.updateEstimate 2500]

/-- C9 counterexample: the claim fails as stated.  After a loss report at
t = 2500 raises the bitrate to 109_000 and a second tick at the same
t = 2500 pushes it, the history holds `[(2500, 100000), (2500, 109000)]` —
strictly increasing in bitrate but with equal timestamps, so it is not
strictly monotone increasing in both coordinates. -/
theorem C9_cex :
    c9CexState.min_bitrate_history = [(2500, 100000), (2500, 109000)] ∧
    ¬ StrictHist c9CexState.min_bitrate_history := by
  decide

/-- C9 (amended): `min_bitrate_history` is monotone NONdecreasing in timestamp
and strictly increasing in bitrate, and this invariant is preserved by every
operation, provided each timestamped operation's `now` is at least every
timestamp already in the history (the spec's monotone-time expectation);
equal-timestamp entries do occur, so strictness in time fails.  Moreover,
after `update_min_history(now)` the front of the deque holds the smallest
bitrate among the retained entries (an entry expires when
`now - entry_time + 1 > 1000`) and the newly pushed bitrate. -/
theorem C9_history_invariant_amended :
    (∀ (sm : Int) (s : EstState) (op : Op) (t : Int),
        HistSorted s.min_bitrate_history → opTime op = some t →
        HistLE t s.min_bitrate_history →
        HistSorted (step sm s op).min_bitrate_history) ∧
    (∀ (sm : Int) (s : EstState) (op : Op),
        opTime op = none → HistSorted s.min_bitrate_history →
        HistSorted (step sm s op).min_bitrate_history) ∧
    (∀ (now : Int) (b : Nat) (h : List (Int × Nat)),
        HistSorted h → HistLE now h →
        ((updateMinHistoryList now b h).headD (0, 0)).2 = windowMin now b h) := by
  refine ⟨?_, ?_, updateMinHistoryList_front⟩
  · intro sm s op t hs hop hle
    cases op with
    | setSendBitrate b => cases hop
    | setMinMaxBitrate mn mx => cases hop
    | setBitrates sb mn mx => cases hop
    | updateReceiverEstimate now bw =>
      cases hop
      exact hs
    | updateDelayBasedEstimate now b2 =>
      cases hop
      exact hs
    | updateReceiverBlock fl rtt n now =>
      cases hop
      exact UpdateReceiverBlock_sorted s fl rtt n t hs hle
    | updateEstimate now =>
      cases hop
      exact UpdateEstimate_hist_sorted s t hs hle
  · intro sm s op hop hs
    cases op with
    | setSendBitrate b =>
      show HistSorted ([] : List (Int × Nat))
      unfold HistSorted
      exact List.Pairwise.nil
    | setMinMaxBitrate mn mx => exact hs
    | setBitrates sb mn mx =>
      show HistSorted (SetBitrates sm s sb mn mx).min_bitrate_history
      unfold SetBitrates SetMinMaxBitrate
      dsimp only
      split_ifs with hsb
      · show HistSorted ([] : List (Int × Nat))
        unfold HistSorted
        exact List.Pairwise.nil
      · exact hs
    | updateReceiverEstimate now bw => cases hop
    | updateDelayBasedEstimate now b2 => cases hop
    | updateReceiverBlock fl rtt n now => cases hop
    | updateEstimate now => cases hop

/-- C9 witness: the amended theorem's window-minimum part at a concrete
history (push 60_000 over `[(2000, 50000), (2400, 80000)]` at t = 2500). -/
theorem C9_witness :
    HistSorted [((2000 : Int), (50000 : Nat)), (2400, 80000)] ∧
    HistLE 2500 [((2000 : Int), (50000 : Nat)), (2400, 80000)] ∧
    ((updateMinHistoryList 2500 60000
        [((2000 : Int), (50000 : Nat)), (2400, 80000)]).headD (0, 0)).2 =
      windowMin 2500 60000 [((2000 : Int), (50000 : Nat)), (2400, 80000)] :=
  ⟨by decide, by decide,
   C9_history_invariant_amended.2.2 2500 60000
     [((2000 : Int), (50000 : Nat)), (2400, 80000)] (by decide) (by decide)⟩

end SSBWE
